import Mathlib

/-!
Verification model of the Heka email output plugin
(`src/email/email_output.go`).

The Go file is shallowly embedded: Go strings become `List Char`, Go maps
become association lists with Go-map get/set semantics, the package-global
mutex `mxAddrsLock` becomes an explicit `LockState` threaded through the
cache operation, and the network (DNS answers, SMTP server behaviour)
becomes explicit oracles passed to the functions.  Every definition is
translated from the source; line numbers in doc comments refer to
`src/email/email_output.go`.
-/

/-- Go string as its character sequence. -/
def chars (s : String) : List Char := s.data

/-- Model of Go `strings.Index(s, c)` for a one-character needle: index of the
first occurrence, `none` for Go's `-1`. -/
def goIndexOf (c : Char) : List Char → Option Nat
  | [] => none
  | x :: xs =>
    if x = c then some 0
    else (goIndexOf c xs).map (· + 1)

/-- Lines 94-95: `i = strings.Index(tos, "@"); host = tos[i+1:]`.  When no
`@` occurs, Go computes `tos[-1+1:] = tos`. -/
def hostOf (tos : List Char) : List Char :=
  match goIndexOf '@' tos with
  | some i => tos.drop (i + 1)
  | none => tos

/-- Go map read `m[k]` returning `some v` when the key is present
(the `v, ok := m[k]` form). -/
def mapGet : List (List Char × List (List Char)) → List Char → Option (List (List Char))
  | [], _ => none
  | (k1, v1) :: rest, k => if k = k1 then some v1 else mapGet rest k

/-- Go map write `m[k] = v`. -/
def mapSet : List (List Char × List (List Char)) → List Char → List (List Char) →
    List (List Char × List (List Char))
  | [], k, v => [(k, v)]
  | (k1, v1) :: rest, k, v =>
    if k = k1 then (k1, v) :: rest else (k1, v1) :: mapSet rest k v

/-- Line 96: `o.byHost[host] = append(o.byHost[host], tos)` — append `v` to the
entry at `k`, creating the entry when absent. -/
def appendEntry (m : List (List Char × List (List Char))) (k v : List Char) :
    List (List Char × List (List Char)) :=
  mapSet m k ((mapGet m k).getD [] ++ [v])

/-- Lines 92-97 of `Prepare`: group the destination set by the domain part of
each address, preserving per-domain recipient order. -/
def buildByHost (toAddrs : List (List Char)) : List (List Char × List (List Char)) :=
  toAddrs.foldl (fun m tos => appendEntry m (hostOf tos) tos) []

/-- State of the package-global `sync.Mutex` `mxAddrsLock` (line 175). -/
inductive LockState
  | unlocked
  | locked
deriving DecidableEq

/-- Outcome of one execution of the cache critical section of `Prepare`
(lines 99-106) for one domain.  `blocked` models `mxAddrsLock.Lock()` never
returning because the mutex is already held; the other two constructors
carry the cache and lock state at the moment `Prepare` returns from (or
continues past) the section. -/
inductive ResolveResult
  | blocked
  | failed (cache : List (List Char × List (List Char))) (lock : LockState)
  | resolved (mxs : List (List Char)) (cache : List (List Char × List (List Char)))
      (lock : LockState) (lookedUp : Bool)
deriving DecidableEq

/-- Lines 99-106 of `Prepare`, the read-then-possibly-write access to the
global MX cache `mxAddrs` for one domain.  `lookup` is the DNS oracle
standing for `net.LookupMX` (`none` = lookup error); `lookedUp` records
whether the oracle was consulted.  Note the translation is faithful to the
source: on a lookup error the function returns (line 102) without ever
reaching the `mxAddrsLock.Unlock()` on line 106, so the lock stays held. -/
def resolveStep (lookup : List Char → Option (List (List Char)))
    (cache : List (List Char × List (List Char))) (lock : LockState)
    (host : List Char) : ResolveResult :=
  match lock with
  | .locked => .blocked
  | .unlocked =>
    match mapGet cache host with
    | some mxs => .resolved mxs cache .unlocked false
    | none =>
      match lookup host with
      | none => .failed cache .locked
      | some mxs => .resolved mxs (mapSet cache host mxs) .unlocked true

/-- Behaviour of the network and of one SMTP server, as observed by one run
of the package-level `sendMail` (lines 226-278): one boolean per protocol
step that can fail, plus the two capability advertisements `c.Extension`
queries.  `rcptOk` answers per recipient address. -/
structure ServerBehavior where
  dialOk : Bool
  newClientOk : Bool
  helloOk : Bool
  advertisesStartTLS : Bool
  startTLSOk : Bool
  advertisesAuth : Bool
  authOk : Bool
  mailOk : Bool
  rcptOk : List Char → Bool
  dataOk : Bool
  writeOk : Bool
  closeOk : Bool
  quitOk : Bool

/-- One attempted protocol step of `sendMail`, in source order: `DialTimeout`,
`NewClient` (reads the server greeting), `Hello`, `StartTLS`, `Auth`, `Mail`,
`Rcpt` per address, then the data phase `Data`/`Write`/`Close`, and `Quit`. -/
inductive Step
  | dial
  | newClient
  | hello
  | startTLS
  | auth
  | mail
  | rcpt (a : List Char)
  | dataOpen
  | dataWrite
  | dataClose
  | quit
deriving DecidableEq

/-- Which `sendMail` step produced the non-nil error that was returned. -/
inductive SMTPErr
  | connect
  | greeting
  | hello
  | tls
  | auth
  | mail
  | rcpt
  | dataOpen
  | dataWrite
  | dataClose
  | quit
deriving DecidableEq

/-- Steps that belong to the body-transmission (data) phase, lines 264-275. -/
def isDataStep : Step → Bool
  | .dataOpen => true
  | .dataWrite => true
  | .dataClose => true
  | _ => false

/-- Lines 258-262: `for _, addr := range to { if err = c.Rcpt(addr); err != nil
{ return err } }` — declare each recipient in order, aborting at the first
rejection. -/
def rcptPhase (rcptOk : List Char → Bool) : List (List Char) → List Step × Option SMTPErr
  | [] => ([], none)
  | a :: rest =>
    if rcptOk a then
      let p := rcptPhase rcptOk rest
      (Step.rcpt a :: p.1, p.2)
    else ([Step.rcpt a], some SMTPErr.rcpt)

/-- Lines 263-277: the data phase when `msg != nil` (open, write, close), then
`return c.Quit()` either way.  `tr` is the trace of the steps already taken. -/
def dataPhase (srv : ServerBehavior) (tr : List Step) (msg : Option (List Char)) :
    List Step × Option SMTPErr :=
  match msg with
  | none => (tr ++ [Step.quit], if srv.quitOk then none else some SMTPErr.quit)
  | some _ =>
    if srv.dataOk then
      if srv.writeOk then
        if srv.closeOk then
          (tr ++ [Step.dataOpen, Step.dataWrite, Step.dataClose, Step.quit],
            if srv.quitOk then none else some SMTPErr.quit)
        else (tr ++ [Step.dataOpen, Step.dataWrite, Step.dataClose], some SMTPErr.dataClose)
      else (tr ++ [Step.dataOpen, Step.dataWrite], some SMTPErr.dataWrite)
    else (tr ++ [Step.dataOpen], some SMTPErr.dataOpen)

/-- Lines 255-277: `c.Mail(from)`, the recipient loop, then the data phase. -/
def envelopePhase (srv : ServerBehavior) (tr : List Step) (toAddrs : List (List Char))
    (msg : Option (List Char)) : List Step × Option SMTPErr :=
  if srv.mailOk then
    let p := rcptPhase srv.rcptOk toAddrs
    match p.2 with
    | some e => (tr ++ [Step.mail] ++ p.1, some e)
    | none => dataPhase srv (tr ++ [Step.mail] ++ p.1) msg
  else (tr ++ [Step.mail], some SMTPErr.mail)

/-- Lines 248-254: authenticate only when credentials were configured
(`a != nil`) and the server advertises `AUTH`; otherwise proceed. -/
def authPhase (srv : ServerBehavior) (hasAuth : Bool) (tr : List Step)
    (toAddrs : List (List Char)) (msg : Option (List Char)) : List Step × Option SMTPErr :=
  if hasAuth then
    if srv.advertisesAuth then
      if srv.authOk then envelopePhase srv (tr ++ [Step.auth]) toAddrs msg
      else (tr ++ [Step.auth], some SMTPErr.auth)
    else envelopePhase srv tr toAddrs msg
  else envelopePhase srv tr toAddrs msg

/-- Lines 243-247: opportunistic `StartTLS` when the server advertises it. -/
def tlsPhase (srv : ServerBehavior) (hasAuth : Bool) (tr : List Step)
    (toAddrs : List (List Char)) (msg : Option (List Char)) : List Step × Option SMTPErr :=
  if srv.advertisesStartTLS then
    if srv.startTLSOk then authPhase srv hasAuth (tr ++ [Step.startTLS]) toAddrs msg
    else (tr ++ [Step.startTLS], some SMTPErr.tls)
  else authPhase srv hasAuth tr toAddrs msg

/-- The package-level `sendMail` (lines 226-278): connect, greeting, hello,
then the later phases.  Returns the trace of attempted steps and the error
returned (`none` = the Go function returned nil).  The server address, the
`from` address, the timeout and the TLS config do not influence control flow
beyond the step outcomes, which `srv` carries. -/
def sendMail (srv : ServerBehavior) (hasAuth : Bool) (toAddrs : List (List Char))
    (msg : Option (List Char)) : List Step × Option SMTPErr :=
  if srv.dialOk then
    if srv.newClientOk then
      if srv.helloOk then
        tlsPhase srv hasAuth [Step.dial, Step.newClient, Step.hello] toAddrs msg
      else ([Step.dial, Step.newClient, Step.hello], some SMTPErr.hello)
    else ([Step.dial, Step.newClient], some SMTPErr.greeting)
  else ([Step.dial], some SMTPErr.connect)

/-- All steps strictly before the data phase succeed: connect, greeting,
hello, TLS when advertised, auth when applicable, sender declaration and
every recipient accepted. -/
def envelopeAllOk (srv : ServerBehavior) (hasAuth : Bool) (toAddrs : List (List Char)) : Bool :=
  srv.dialOk && srv.newClientOk && srv.helloOk &&
  (!srv.advertisesStartTLS || srv.startTLSOk) &&
  (!(hasAuth && srv.advertisesAuth) || srv.authOk) &&
  srv.mailOk && toAddrs.all srv.rcptOk

/-- All steps strictly before `Quit` succeed, the data phase included. -/
def preQuitOk (srv : ServerBehavior) (hasAuth : Bool) (toAddrs : List (List Char)) : Bool :=
  envelopeAllOk srv hasAuth toAddrs && srv.dataOk && srv.writeOk && srv.closeOk

/-- Go `time.Second` in nanoseconds (`time.Duration` counts nanoseconds). -/
def timeSecond : Nat := 1000000000

/-- Line 30: `var DefaultTimeout = 30 * time.Second`, in nanoseconds. -/
def DefaultTimeout : Nat := 30 * timeSecond

/-- One invocation of the package-level `sendMail` by the Delivery Planner:
the `addr` argument and the `timeout` argument (nanoseconds). -/
structure Call where
  hostport : List Char
  timeout : Nat
deriving DecidableEq

/-- Result of `EmailOutput.sendMail` (lines 178-212): `ok` is a nil return;
`groupFailed` the formatted error of lines 200-203 (domain, recipients,
candidate list, last session error); `relayFailed` the error returned
directly on the fixed-relay path (line 211). -/
inductive SendResult
  | ok
  | groupFailed (host : List Char) (tos : List (List Char)) (mxs : List (List Char))
      (e : SMTPErr)
  | relayFailed (e : SMTPErr)
deriving DecidableEq

/-- Lines 190-199, the candidate loop of `EmailOutput.sendMail`, with the Go
variable `err` threaded as `lastErr` (initialised to nil on line 190):
`for _, mx := range mxs { err = sendMail(mx.Host+":25", ..., 30, ...); if err
== nil { break } }`.  `session` is the oracle for the package-level
`sendMail`'s outcome at a given `addr` and timeout; the returned list records
every invocation in order. -/
def tryMXsAux (session : List Char → Nat → Option SMTPErr) (timeout : Nat)
    (lastErr : Option SMTPErr) : List (List Char) → List Call × Option SMTPErr
  | [] => ([], lastErr)
  | mx :: rest =>
    let hp := mx ++ chars ":25"
    match session hp timeout with
    | none => ([⟨hp, timeout⟩], none)
    | some e =>
      let p := tryMXsAux session timeout (some e) rest
      (⟨hp, timeout⟩ :: p.1, p.2)

/-- The candidate loop with `err` starting nil (line 190). -/
def tryMXs (session : List Char → Nat → Option SMTPErr) (timeout : Nat)
    (mxs : List (List Char)) : List Call × Option SMTPErr :=
  tryMXsAux session timeout none mxs

/-- Lines 186-205 of `EmailOutput.sendMail`, the per-domain group loop: for
each domain group read the cached candidate list (`mxAddrs[host]`, a missing
key reading as nil, line 188), run the candidate loop with the literal
timeout `30` (line 194), and return the group error as soon as one group
exhausts its candidates. -/
def perDomainLoop (cache : List (List Char × List (List Char)))
    (session : List Char → Nat → Option SMTPErr) :
    List (List Char × List (List Char)) → List Call × SendResult
  | [] => ([], .ok)
  | (host, tos) :: rest =>
    let mxs := (mapGet cache host).getD []
    let p := tryMXs session 30 mxs
    match p.2 with
    | some e => (p.1, .groupFailed host tos mxs e)
    | none =>
      let q := perDomainLoop cache session rest
      (p.1 ++ q.1, q.2)

/-- The plugin state used by `EmailOutput.sendMail`: the configured sender,
destination set, fixed relay (`hostport`, empty = per-domain mode), whether
credentials were configured, and the domain grouping built by `Prepare`. -/
structure EmailOutput where
  From : List Char
  To : List (List Char)
  hostport : List Char
  hasAuth : Bool
  byHost : List (List Char × List (List Char))

/-- `EmailOutput.sendMail` (lines 178-212): per-domain mode runs the group
loop over `byHost` against the global cache; fixed-relay mode makes exactly
one session call at `o.hostport` with `DefaultTimeout` (lines 208-209) and
returns its error directly. -/
def EmailOutput.sendMail (o : EmailOutput) (cache : List (List Char × List (List Char)))
    (session : List Char → Nat → Option SMTPErr) : List Call × SendResult :=
  if o.hostport = [] then perDomainLoop cache session o.byHost
  else
    ([⟨o.hostport, DefaultTimeout⟩],
      match session o.hostport DefaultTimeout with
      | none => SendResult.ok
      | some e => SendResult.relayFailed e)

/-- Lines 156-159: the `fmt.Sprintf("Subject: %s [%d] %s@%s: ", ...)` header.
The formatted timestamp (`utils.TsTime(...).Format(time.RFC3339)`, computed
outside this file's scope) is taken as the already-formatted input `tsF`;
the severity renders with `%d`. -/
def subjectHeader (tsF : List Char) (severity : Int) (logger hostname : List Char) :
    List Char :=
  chars "Subject: " ++ tsF ++ chars " [" ++ chars (toString severity) ++ chars "] " ++
    logger ++ chars "@" ++ hostname ++ chars ": "

/-- Lines 151-162 of `Run`, the message body built for one record: the
subject header, then the payload truncated to 100 characters when longer
(lines 153-155), then a blank line (`"\r\n\r\n"`), then the full payload. -/
def buildBody (tsF : List Char) (severity : Int) (logger hostname payload : List Char) :
    List Char :=
  subjectHeader tsF severity logger hostname ++
    (if payload.length > 100 then payload.take 100 else payload) ++
    chars "\r\n\r\n" ++ payload

/-- A server on which every protocol step succeeds except the final `Quit`. -/
def srvQuitFail : ServerBehavior :=
  { dialOk := true, newClientOk := true, helloOk := true,
    advertisesStartTLS := true, startTLSOk := true,
    advertisesAuth := true, authOk := true, mailOk := true,
    rcptOk := fun _ => true, dataOk := true, writeOk := true,
    closeOk := true, quitOk := false }

/-- A session oracle on which every transport session fails to connect. -/
def sessFailAll : List Char → Nat → Option SMTPErr := fun _ _ => some SMTPErr.connect

/-- A session oracle on which only the host `mx3` (port 25) accepts the
session and every other host fails. -/
def sessOnlyMx3 : List Char → Nat → Option SMTPErr := fun hp _ =>
  if hp = chars "mx3:25" then none else some SMTPErr.connect

/-- A DNS oracle on which every MX lookup fails. -/
def lookupFailAll : List Char → Option (List (List Char)) := fun _ => none

/-- A DNS oracle on which every domain resolves to the single host `mx1`. -/
def lookupMx1 : List Char → Option (List (List Char)) := fun _ => some [chars "mx1"]

/-- Setting a key makes it readable back. -/
theorem mapGet_mapSet (c : List (List Char × List (List Char))) (k : List Char)
    (v : List (List Char)) : mapGet (mapSet c k v) k = some v := by
  induction c with
  | nil => simp [mapSet, mapGet]
  | cons e rest ih =>
    obtain ⟨k1, v1⟩ := e
    by_cases hk : k = k1
    · simp [mapSet, mapGet, hk]
    · simp [mapSet, mapGet, hk, ih]

/-- The candidate loop ends with a nil error exactly when the list was empty
with the carried error nil, or some candidate's session succeeded. -/
theorem tryMXsAux_none_iff (session : List Char → Nat → Option SMTPErr) (t : Nat)
    (le : Option SMTPErr) (mxs : List (List Char)) :
    (tryMXsAux session t le mxs).2 = none ↔
      (mxs = [] ∧ le = none) ∨ ∃ mx ∈ mxs, session (mx ++ chars ":25") t = none := by
  induction mxs generalizing le with
  | nil => simp [tryMXsAux]
  | cons mx rest ih =>
    cases hs : session (mx ++ chars ":25") t with
    | none => simp [tryMXsAux, hs]
    | some e => simp [tryMXsAux, hs, ih]

/-- Every invocation the candidate loop makes carries the timeout it was
given. -/
theorem tryMXsAux_timeout (session : List Char → Nat → Option SMTPErr) (t : Nat)
    (le : Option SMTPErr) (mxs : List (List Char)) :
    ∀ c ∈ (tryMXsAux session t le mxs).1, c.timeout = t := by
  induction mxs generalizing le with
  | nil => simp [tryMXsAux]
  | cons mx rest ih =>
    cases hs : session (mx ++ chars ":25") t with
    | none => simp [tryMXsAux, hs]
    | some e =>
      intro c hc
      simp only [tryMXsAux, hs, List.mem_cons] at hc
      rcases hc with hc | hc
      · simp [hc]
      · exact ih (some e) c hc

/-- C1 counterexample: with an empty cache (the domain `x.com` absent) and a
session oracle on which every transport session fails, the per-domain loop
still reports the delivery as successful, making no session call at all — so
a group whose candidate list is absent from the cache is reported as
delivered with no successful transport session, refuting the claim at this
concrete input. -/
theorem c1_counterexample :
    perDomainLoop [] sessFailAll [(chars "x.com", [chars "a@x.com"])] =
      ([], SendResult.ok) ∧
    mapGet [] (chars "x.com") = none := by decide

/-- C1 (amended): in per-domain main-loop delivery the whole delivery is
reported successful iff every domain group either has at least one candidate
whose transport session succeeds, or has an empty or absent candidate list in
the cache — for a nonempty candidate list exactly one successful session
constitutes group success, but an empty or absent list is vacuously reported
as delivered. -/
theorem c1_group_delivered_iff (cache : List (List Char × List (List Char)))
    (session : List Char → Nat → Option SMTPErr)
    (groups : List (List Char × List (List Char))) :
    (perDomainLoop cache session groups).2 = SendResult.ok ↔
      ∀ g ∈ groups, (mapGet cache g.1).getD [] = [] ∨
        ∃ mx ∈ (mapGet cache g.1).getD [], session (mx ++ chars ":25") 30 = none := by
  induction groups with
  | nil => simp [perDomainLoop]
  | cons g rest ih =>
    obtain ⟨host, tos⟩ := g
    simp only [perDomainLoop]
    cases hp : (tryMXs session 30 ((mapGet cache host).getD [])).2 with
    | some e =>
      simp only [hp]
      constructor
      · intro h; cases h
      · intro h
        have hg := h (host, tos) (List.mem_cons_self _ _)
        have h2 : (tryMXs session 30 ((mapGet cache host).getD [])).2 = none := by
          rw [tryMXs, tryMXsAux_none_iff]
          rcases hg with h1 | h1
          · exact Or.inl ⟨h1, rfl⟩
          · exact Or.inr h1
        rw [hp] at h2
        cases h2
    | none =>
      simp only [hp]
      rw [ih]
      constructor
      · intro h g hg
        rcases List.mem_cons.mp hg with he | hg
        · subst he
          have h3 := (tryMXsAux_none_iff session 30 none _).mp hp
          rcases h3 with ⟨h1, _⟩ | h1
          · exact Or.inl h1
          · exact Or.inr h1
        · exact h g hg
      · intro h g hg
        exact h g (List.mem_cons_of_mem _ hg)

/-- C3: the cache critical section does not release the lock on the
resolution-failure path.  At the concrete input: resolving `a.com` with a
failing DNS oracle returns with the shared lock still held, and a subsequent
resolution of the different domain `b.com` — even with a DNS oracle that
would succeed — blocks forever on the lock, so concurrent resolution of two
different domains deadlocks after one failure. -/
theorem c3_failed_resolution_holds_lock :
    resolveStep lookupFailAll [] .unlocked (chars "a.com") = .failed [] .locked ∧
    resolveStep lookupMx1 [] .locked (chars "b.com") = .blocked := by decide

/-- C4: at the concrete failing input (domain `x.com`, failing DNS oracle,
empty cache) the failure indeed leaves the cache unchanged — no entry for
`x.com` is created — but the lock is left held, so the later resolution
attempt for `x.com`, with a DNS oracle that would now succeed, blocks
forever instead of performing the fresh lookup the claim promises. -/
theorem c4_failure_no_cache_entry_but_retry_blocks :
    resolveStep lookupFailAll [] .unlocked (chars "x.com") = .failed [] .locked ∧
    resolveStep lookupMx1 [] .locked (chars "x.com") = .blocked := by decide

/-- C6: with candidate list `[mx1, mx2, mx3]` for `d.com` and a session
oracle failing on `mx1:25` and `mx2:25` and succeeding on `mx3:25`, the
per-domain loop reports overall success, attempts exactly `mx1:25`,
`mx2:25`, `mx3:25` in that order, and attempts nothing beyond `mx3`. -/
theorem c6_failover_stops_at_first_success :
    perDomainLoop [(chars "d.com", [chars "mx1", chars "mx2", chars "mx3"])]
      sessOnlyMx3 [(chars "d.com", [chars "u@d.com"])] =
      ([⟨chars "mx1:25", 30⟩, ⟨chars "mx2:25", 30⟩, ⟨chars "mx3:25", 30⟩],
        SendResult.ok) := by decide

/-- C7: grouping the destination set `{a@x.com, b@y.com, c@x.com}` yields
exactly the two groups `x.com -> [a@x.com, c@x.com]` and
`y.com -> [b@y.com]`, each recipient list in original order. -/
theorem c7_grouping_by_domain :
    buildByHost [chars "a@x.com", chars "b@y.com", chars "c@x.com"] =
      [(chars "x.com", [chars "a@x.com", chars "c@x.com"]),
       (chars "y.com", [chars "b@y.com"])] ∧
    (buildByHost [chars "a@x.com", chars "b@y.com", chars "c@x.com"]).length = 2 := by
  decide

/-- The recipient loop only produces `rcpt` steps, never a data-phase step. -/
theorem rcptPhase_noData (f : List Char → Bool) (l : List (List Char)) :
    ∀ s ∈ (rcptPhase f l).1, isDataStep s = false := by
  induction l with
  | nil => simp [rcptPhase]
  | cons a rest ih =>
    intro s hs
    by_cases hf : f a = true
    · simp only [rcptPhase, hf, if_true, List.mem_cons] at hs
      rcases hs with rfl | hs
      · rfl
      · exact ih s hs
    · simp [rcptPhase, hf] at hs
      subst hs
      rfl

/-- With every recipient accepted, the recipient loop declares each in order
and returns nil. -/
theorem rcptPhase_all_ok (f : List Char → Bool) (l : List (List Char))
    (h : l.all f = true) : rcptPhase f l = (l.map Step.rcpt, none) := by
  induction l with
  | nil => rfl
  | cons a rest ih =>
    simp only [List.all_cons, Bool.and_eq_true] at h
    simp [rcptPhase, h.1, ih h.2]

/-- Concatenation preserves freedom from data steps. -/
theorem noData_append (tr tr' : List Step) (h : ∀ s ∈ tr, isDataStep s = false)
    (h' : ∀ s ∈ tr', isDataStep s = false) : ∀ s ∈ tr ++ tr', isDataStep s = false := by
  intro s hs
  rcases List.mem_append.mp hs with hs | hs
  · exact h s hs
  · exact h' s hs

/-- In probe mode (`msg = nil`) the data phase contributes only the `Quit`
step to the trace. -/
theorem dataPhase_none_fst (srv : ServerBehavior) (tr : List Step) :
    (dataPhase srv tr none).1 = tr ++ [Step.quit] := rfl

/-- The error returned by the data phase does not depend on the trace so
far. -/
theorem dataPhase_snd (srv : ServerBehavior) (tr tr' : List Step)
    (msg : Option (List Char)) :
    (dataPhase srv tr msg).2 = (dataPhase srv tr' msg).2 := by
  cases msg with
  | none => rfl
  | some b =>
    by_cases h1 : srv.dataOk = true <;> by_cases h2 : srv.writeOk = true <;>
      by_cases h3 : srv.closeOk = true <;> simp [dataPhase, h1, h2, h3]

/-- In probe mode the envelope phase opens no data phase and writes
nothing. -/
theorem envelopePhase_none_noData (srv : ServerBehavior) (tr : List Step)
    (toAddrs : List (List Char)) (h : ∀ s ∈ tr, isDataStep s = false) :
    ∀ s ∈ (envelopePhase srv tr toAddrs none).1, isDataStep s = false := by
  have hmail : ∀ s ∈ tr ++ [Step.mail], isDataStep s = false :=
    noData_append _ _ h (by intro s hs; simp only [List.mem_singleton] at hs; subst hs; rfl)
  by_cases hm : srv.mailOk = true
  · cases hr : (rcptPhase srv.rcptOk toAddrs).2 with
    | some e =>
      simp only [envelopePhase, hm, if_true, hr]
      exact noData_append _ _ hmail (rcptPhase_noData _ _)
    | none =>
      simp only [envelopePhase, hm, if_true, hr, dataPhase_none_fst]
      exact noData_append _ _
        (noData_append _ _ hmail (rcptPhase_noData _ _))
        (by intro s hs; simp only [List.mem_singleton] at hs; subst hs; rfl)
  · simp only [envelopePhase, hm, if_false]
    exact hmail

/-- In probe mode the auth phase opens no data phase and writes nothing. -/
theorem authPhase_none_noData (srv : ServerBehavior) (hasAuth : Bool) (tr : List Step)
    (toAddrs : List (List Char)) (h : ∀ s ∈ tr, isDataStep s = false) :
    ∀ s ∈ (authPhase srv hasAuth tr toAddrs none).1, isDataStep s = false := by
  have hauth : ∀ s ∈ tr ++ [Step.auth], isDataStep s = false :=
    noData_append _ _ h (by intro s hs; simp only [List.mem_singleton] at hs; subst hs; rfl)
  by_cases ha : hasAuth = true
  · by_cases hadv : srv.advertisesAuth = true
    · by_cases hok : srv.authOk = true
      · simp only [authPhase, ha, hadv, hok, if_true]
        exact envelopePhase_none_noData _ _ _ hauth
      · simp only [authPhase, ha, hadv, hok, if_true, if_false]
        exact hauth
    · simp only [authPhase, ha, hadv, if_true, if_false]
      exact envelopePhase_none_noData _ _ _ h
  · simp only [authPhase, ha, if_false]
    exact envelopePhase_none_noData _ _ _ h

/-- In probe mode the TLS phase opens no data phase and writes nothing. -/
theorem tlsPhase_none_noData (srv : ServerBehavior) (hasAuth : Bool) (tr : List Step)
    (toAddrs : List (List Char)) (h : ∀ s ∈ tr, isDataStep s = false) :
    ∀ s ∈ (tlsPhase srv hasAuth tr toAddrs none).1, isDataStep s = false := by
  have htls : ∀ s ∈ tr ++ [Step.startTLS], isDataStep s = false :=
    noData_append _ _ h (by intro s hs; simp only [List.mem_singleton] at hs; subst hs; rfl)
  by_cases hadv : srv.advertisesStartTLS = true
  · by_cases hok : srv.startTLSOk = true
    · simp only [tlsPhase, hadv, hok, if_true]
      exact authPhase_none_noData _ _ _ _ htls
    · simp only [tlsPhase, hadv, hok, if_true, if_false]
      exact htls
  · simp only [tlsPhase, hadv, if_false]
    exact authPhase_none_noData _ _ _ _ h

/-- In probe mode the whole session opens no data phase and writes
nothing. -/
theorem sendMail_none_noData (srv : ServerBehavior) (hasAuth : Bool)
    (toAddrs : List (List Char)) :
    ∀ s ∈ (sendMail srv hasAuth toAddrs none).1, isDataStep s = false := by
  have hpre : ∀ s ∈ [Step.dial, Step.newClient, Step.hello], isDataStep s = false := by
    intro s hs
    simp only [List.mem_cons, List.not_mem_nil, or_false] at hs
    rcases hs with rfl | rfl | rfl <;> rfl
  by_cases hd : srv.dialOk = true
  · by_cases hn : srv.newClientOk = true
    · by_cases hh : srv.helloOk = true
      · simp only [sendMail, hd, hn, hh, if_true]
        exact tlsPhase_none_noData _ _ _ _ hpre
      · intro s hs
        simp [sendMail, hd, hn, hh] at hs
        rcases hs with rfl | rfl | rfl <;> rfl
    · intro s hs
      simp [sendMail, hd, hn] at hs
      rcases hs with rfl | rfl <;> rfl
  · intro s hs
    simp [sendMail, hd] at hs
    subst hs
    rfl

/-- With the sender and every recipient accepted, the envelope phase hands
control to the data phase and its error is the data phase's. -/
theorem envelopePhase_snd_ok (srv : ServerBehavior) (tr : List Step)
    (toAddrs : List (List Char)) (msg : Option (List Char))
    (hm : srv.mailOk = true) (hr : toAddrs.all srv.rcptOk = true) :
    (envelopePhase srv tr toAddrs msg).2 = (dataPhase srv [] msg).2 := by
  simp only [envelopePhase, hm, if_true, rcptPhase_all_ok _ _ hr]
  exact dataPhase_snd _ _ _ _

/-- With auth passing whenever applicable, the auth phase's error is the data
phase's. -/
theorem authPhase_snd_ok (srv : ServerBehavior) (hasAuth : Bool) (tr : List Step)
    (toAddrs : List (List Char)) (msg : Option (List Char))
    (hauth : (!(hasAuth && srv.advertisesAuth) || srv.authOk) = true)
    (hm : srv.mailOk = true) (hr : toAddrs.all srv.rcptOk = true) :
    (authPhase srv hasAuth tr toAddrs msg).2 = (dataPhase srv [] msg).2 := by
  by_cases ha : hasAuth = true
  · by_cases hadv : srv.advertisesAuth = true
    · have hok : srv.authOk = true := by
        rw [ha, hadv] at hauth
        simpa using hauth
      simp only [authPhase, ha, hadv, hok, if_true]
      exact envelopePhase_snd_ok _ _ _ _ hm hr
    · simp only [authPhase, ha, hadv, if_true, if_false]
      exact envelopePhase_snd_ok _ _ _ _ hm hr
  · simp only [authPhase, ha, if_false]
    exact envelopePhase_snd_ok _ _ _ _ hm hr

/-- With TLS passing whenever advertised, the TLS phase's error is the data
phase's. -/
theorem tlsPhase_snd_ok (srv : ServerBehavior) (hasAuth : Bool) (tr : List Step)
    (toAddrs : List (List Char)) (msg : Option (List Char))
    (htls : (!srv.advertisesStartTLS || srv.startTLSOk) = true)
    (hauth : (!(hasAuth && srv.advertisesAuth) || srv.authOk) = true)
    (hm : srv.mailOk = true) (hr : toAddrs.all srv.rcptOk = true) :
    (tlsPhase srv hasAuth tr toAddrs msg).2 = (dataPhase srv [] msg).2 := by
  by_cases hadv : srv.advertisesStartTLS = true
  · have hok : srv.startTLSOk = true := by
      rw [hadv] at htls
      simpa using htls
    simp only [tlsPhase, hadv, hok, if_true]
    exact authPhase_snd_ok _ _ _ _ _ hauth hm hr
  · simp only [tlsPhase, hadv, if_false]
    exact authPhase_snd_ok _ _ _ _ _ hauth hm hr

/-- When every step up to the envelope succeeds, the session's error is the
data phase's (which ends in `return c.Quit()`). -/
theorem sendMail_envelope_snd (srv : ServerBehavior) (hasAuth : Bool)
    (toAddrs : List (List Char)) (msg : Option (List Char))
    (h : envelopeAllOk srv hasAuth toAddrs = true) :
    (sendMail srv hasAuth toAddrs msg).2 = (dataPhase srv [] msg).2 := by
  simp only [envelopeAllOk, Bool.and_eq_true] at h
  obtain ⟨⟨⟨⟨⟨⟨hd, hn⟩, hh⟩, htls⟩, hauth⟩, hm⟩, hr⟩ := h
  simp only [sendMail, hd, hn, hh, if_true]
  exact tlsPhase_snd_ok _ _ _ _ _ htls hauth hm hr

/-- Every invocation the per-domain group loop makes carries the literal
timeout 30 of line 194. -/
theorem perDomainLoop_timeout (cache : List (List Char × List (List Char)))
    (session : List Char → Nat → Option SMTPErr)
    (groups : List (List Char × List (List Char))) :
    ∀ c ∈ (perDomainLoop cache session groups).1, c.timeout = 30 := by
  induction groups with
  | nil => simp [perDomainLoop]
  | cons g rest ih =>
    obtain ⟨host, tos⟩ := g
    intro c hc
    simp only [perDomainLoop] at hc
    cases hp : (tryMXs session 30 ((mapGet cache host).getD [])).2 with
    | some e =>
      rw [hp] at hc
      exact tryMXsAux_timeout session 30 none _ c hc
    | none =>
      rw [hp] at hc
      simp only [List.mem_append] at hc
      rcases hc with hc | hc
      · exact tryMXsAux_timeout session 30 none _ c hc
      · exact ih c hc

/-- C2 counterexample: on a server where connect, greeting, TLS upgrade,
authentication, envelope and the whole body transmission (data open, write,
close) succeed and only the final `Quit` fails, the session returns the quit
error — the trace shows every step up to `dataClose` completed, yet the
result is a failure, not success, refuting the claim at this concrete
input. -/
theorem c2_counterexample :
    sendMail srvQuitFail true [chars "u@d.com"] (some (chars "m")) =
      ([Step.dial, Step.newClient, Step.hello, Step.startTLS, Step.auth, Step.mail,
        Step.rcpt (chars "u@d.com"), Step.dataOpen, Step.dataWrite, Step.dataClose,
        Step.quit], some SMTPErr.quit) := by decide

/-- C2 (amended): for every transport session in which all steps before
`Quit` succeed (connect, greeting, optional TLS, optional auth, envelope and
body transmission), the session's result is success exactly when the final
quit also succeeds — a quit failure is returned as the session's error
rather than being absorbed. -/
theorem c2_quit_failure_fails_session (srv : ServerBehavior) (hasAuth : Bool)
    (toAddrs : List (List Char)) (body : List Char)
    (h : preQuitOk srv hasAuth toAddrs = true) :
    (sendMail srv hasAuth toAddrs (some body)).2 =
      if srv.quitOk then none else some SMTPErr.quit := by
  simp only [preQuitOk, Bool.and_eq_true] at h
  obtain ⟨⟨⟨henv, hdata⟩, hw⟩, hc⟩ := h
  rw [sendMail_envelope_snd _ _ _ _ henv]
  simp [dataPhase, hdata, hw, hc]

/-- C2 witness: the amended statement applied to the concrete quit-failing
server and a concrete message. -/
theorem c2_witness :
    (sendMail srvQuitFail true [chars "u@d.com"] (some (chars "m"))).2 =
      if srvQuitFail.quitOk then none else some SMTPErr.quit :=
  c2_quit_failure_fails_session srvQuitFail true [chars "u@d.com"] (chars "m") (by decide)

/-- C5: once a resolution of `host` has succeeded (cache hit or fresh lookup,
leaving the cache holding `mxs` for `host` and the lock released), every
subsequent resolution of `host` — under any DNS oracle whatsoever — returns
the identical ordered candidate list from the cache, consults the oracle not
at all (`lookedUp = false`), and leaves the cache unchanged. -/
theorem c5_cache_hit_determinism (lookup1 lookup2 : List Char → Option (List (List Char)))
    (cache cache2 : List (List Char × List (List Char))) (host : List Char)
    (mxs : List (List Char)) (lu : Bool)
    (h : resolveStep lookup1 cache .unlocked host = .resolved mxs cache2 .unlocked lu) :
    resolveStep lookup2 cache2 .unlocked host = .resolved mxs cache2 .unlocked false := by
  unfold resolveStep at h ⊢
  cases hget : mapGet cache host with
  | some v =>
    rw [hget] at h
    injection h with h1 h2 h3 h4
    subst h1
    subst h2
    rw [hget]
  | none =>
    rw [hget] at h
    cases hl : lookup1 host with
    | none =>
      rw [hl] at h
      exact absurd h (by simp)
    | some v =>
      rw [hl] at h
      injection h with h1 h2 h3 h4
      subst h1
      subst h2
      rw [mapGet_mapSet]

/-- C5 witness: after `x.com` resolved to `[mx1]` into the cache, a second
resolution under a DNS oracle that always fails still returns `[mx1]` from
the cache without consulting the oracle. -/
theorem c5_witness :
    resolveStep lookupFailAll [(chars "x.com", [chars "mx1"])] .unlocked (chars "x.com") =
      .resolved [chars "mx1"] [(chars "x.com", [chars "mx1"])] .unlocked false :=
  c5_cache_hit_determinism lookupMx1 lookupFailAll [] [(chars "x.com", [chars "mx1"])]
    (chars "x.com") [chars "mx1"] true (by decide)

/-- C8: for a payload longer than 100 characters, the body built by `Run` is
the subject header, then exactly the first 100 characters of the payload,
then the blank line, then the full untruncated payload. -/
theorem c8_subject_truncation (tsF : List Char) (severity : Int)
    (logger hostname payload : List Char) (h : payload.length > 100) :
    buildBody tsF severity logger hostname payload =
      subjectHeader tsF severity logger hostname ++ payload.take 100 ++
        chars "\r\n\r\n" ++ payload ∧
    (payload.take 100).length = 100 := by
  constructor
  · unfold buildBody
    rw [if_pos h]
  · rw [List.length_take]
    omega

/-- C8 witness: the truncation statement applied to a concrete 101-character
payload. -/
theorem c8_witness :
    (List.replicate 101 'a').length > 100 ∧
    (buildBody [] 0 [] [] (List.replicate 101 'a') =
        subjectHeader [] 0 [] [] ++ (List.replicate 101 'a').take 100 ++
          chars "\r\n\r\n" ++ List.replicate 101 'a' ∧
      ((List.replicate 101 'a').take 100).length = 100) :=
  ⟨by decide, c8_subject_truncation [] 0 [] [] (List.replicate 101 'a') (by decide)⟩

/-- C9 counterexample: a probe (no body) on a server where every step
succeeds except the final `Quit` reaches the end of envelope negotiation with
all steps accepted and performs no data step, yet the probe returns the quit
error — so reaching the end of the envelope with all steps accepted does not
by itself count as a successful probe, refuting that part of the claim. -/
theorem c9_counterexample :
    sendMail srvQuitFail false [chars "u@d.com"] none =
      ([Step.dial, Step.newClient, Step.hello, Step.startTLS, Step.mail,
        Step.rcpt (chars "u@d.com"), Step.quit], some SMTPErr.quit) := by decide

/-- C9 (amended): every probe (no body supplied) performs no
body-transmission step — no data phase is opened and nothing is written —
and when all envelope steps are accepted the probe succeeds exactly when the
final quit also succeeds; a quit failure makes the probe fail. -/
theorem c9_probe_skips_data (srv : ServerBehavior) (hasAuth : Bool)
    (toAddrs : List (List Char)) :
    (∀ s ∈ (sendMail srv hasAuth toAddrs none).1, isDataStep s = false) ∧
    (envelopeAllOk srv hasAuth toAddrs = true →
      (sendMail srv hasAuth toAddrs none).2 =
        if srv.quitOk then none else some SMTPErr.quit) := by
  constructor
  · exact sendMail_none_noData srv hasAuth toAddrs
  · intro h
    rw [sendMail_envelope_snd _ _ _ _ h]
    rfl

/-- C10: in per-domain main-loop delivery every session invocation carries
the timeout literal `30` (30 nanoseconds as a `time.Duration`), while
fixed-relay delivery invokes the session with `DefaultTimeout`
(30 seconds) — and the two values differ, so the two relay modes do not use
the same connect timeout for record delivery. -/
theorem c10_relay_mode_timeout_mismatch (o : EmailOutput)
    (cache : List (List Char × List (List Char)))
    (session : List Char → Nat → Option SMTPErr) :
    (o.hostport = [] → ∀ c ∈ (o.sendMail cache session).1, c.timeout = 30) ∧
    (¬o.hostport = [] → ∀ c ∈ (o.sendMail cache session).1, c.timeout = DefaultTimeout) ∧
    (30 : Nat) ≠ DefaultTimeout := by
  refine ⟨?_, ?_, by decide⟩
  · intro hp c hc
    unfold EmailOutput.sendMail at hc
    rw [if_pos hp] at hc
    exact perDomainLoop_timeout cache session o.byHost c hc
  · intro hp c hc
    unfold EmailOutput.sendMail at hc
    rw [if_neg hp] at hc
    simp only [List.mem_singleton] at hc
    subst hc
    rfl
